import Mathlib

/-!
# GetDescriptor: the command-line driver of the ECHO descriptor

A shallow embedding of `src/GetDescriptor/GetDescriptor.cpp`.

Conventions of the embedding.

* `int` is a 32-bit two's-complement integer.  Values are carried as `Int`; the result of an
  `int` operation whose exact value is `z` is `wrapInt z`.
* `unsigned int` values are carried as `Nat` (below `2^32`); the subtraction is `usub`, which
  wraps around below zero, and `toUnsigned` converts an `int`.
* `float` and `double` values are carried as rationals (or, for the support radius, as
  elements of a field with a square root supplied by the caller).  The `float` arithmetic of
  the disk test of line 123 is rounded to binary32 after every operation (`roundFloat`); the
  sample coordinates of lines 105-106 and 121-122 and the support radius are exact.
  A coordinate that is not a finite number (the quotient `0.0/0`) is `none`.
* The mesh library, the descriptor computation `echo`, the grid type `RegularGrid` and the
  command-line parser live in headers outside this file.  Calls into them are recorded as
  events of a trace, and what they return is supplied by an environment `Env`.
-/

namespace GetDescriptor

/-! ## Machine integers -/

/-- The value stored in a 32-bit `int` when the exact result of an operation is `z`. -/
def wrapInt (z : Int) : Int := (z + 2147483648) % 4294967296 - 2147483648

/-- Conversion of an `int` value to `unsigned int` (reduction modulo `2^32`). -/
def toUnsigned (z : Int) : Nat := (z % 4294967296).toNat

/-- Subtraction of `unsigned int` values: it wraps around modulo `2^32` below zero. -/
def usub (a b : Nat) : Nat := if b ≤ a then a - b else a + 4294967296 - b

/-- The constant `EXIT_FAILURE` of `<stdlib.h>`. -/
def EXIT_FAILURE : Int := 1

/-! ## Grids -/

/-- The value of a `float` grid cell: a finite number, `+infinity` (the sentinel written by
`ResampleSignalDisk` and by `echo`), or a NaN. -/
inductive Cell where
  | finite (q : ℚ)
  | posInf
  | nan
  deriving DecidableEq

/-- A `float` coordinate; `none` is a value that is not a finite number. -/
abbrev Coord := Option ℚ

/-- The part of `RegularGrid< float , 2 >` the driver uses: the two resolutions `res(0)`,
`res(1)` and the cells read and written through `operator()( i , j )`. -/
structure RegularGrid where
  res0 : Nat
  res1 : Nat
  cell : Nat → Nat → Cell

namespace RegularGrid

/-- A default-constructed grid after `resize( resX , resY )`.  The cells hold no meaningful
value until they are written. -/
def resize (resX resY : Nat) : RegularGrid := ⟨resX, resY, fun _ _ => Cell.finite 0⟩

/-- The assignment `out(i,j) = v`. -/
def assign (out : RegularGrid) (i j : Nat) (v : Cell) : RegularGrid :=
  { out with cell := fun a b => if a = i ∧ b = j then v else out.cell a b }

end RegularGrid

/-- The loop `for( unsigned int i=0 ; i<n ; i++ ) body`, acting on a state. -/
def forLoop {σ : Type} (n : Nat) (body : Nat → σ → σ) (s : σ) : σ :=
  (List.range n).foldl (fun acc i => body i acc) s

/-- Lines 90-96. -/
def TransposeSignal (input : RegularGrid) : RegularGrid :=
  let out := RegularGrid.resize input.res1 input.res0
  forLoop input.res0 (fun i out =>
    forLoop input.res1 (fun j out => out.assign j i (input.cell i j)) out) out

/-- The sample coordinate of lines 105, 106, 121 and 122:
`(float)( ((double)i)/(resOut-1) * (resIn-1) )`. -/
def sampleCoord (i resOut resIn : Nat) : Coord :=
  if usub resOut 1 = 0 then none
  else some ((i : ℚ) / (usub resOut 1 : ℚ) * (usub resIn 1 : ℚ))

/-- Lines 98-110.  `eval` is the interpolating `operator()( x , y )` of the grid. -/
def ResampleSignal (eval : RegularGrid → Coord → Coord → Cell) (input : RegularGrid)
    (resX resY : Nat) : RegularGrid :=
  let out := RegularGrid.resize resX resY
  forLoop resX (fun i out =>
    forLoop resY (fun j out =>
      let x := sampleCoord i resX input.res0
      let y := sampleCoord j resY input.res1
      out.assign i j (eval input x y)) out) out

/-- Rounding to the nearest integer, a tie going to the even one. -/
def roundHalfEven (q : ℚ) : Int :=
  if q - ⌊q⌋ < 1 / 2 then ⌊q⌋
  else if 1 / 2 < q - ⌊q⌋ then ⌊q⌋ + 1
  else if ⌊q⌋ % 2 = 0 then ⌊q⌋ else ⌊q⌋ + 1

/-- The `float` nearest to `q`, a tie going to the even significand: binary32 has a
significand of 24 bits, so a value in `[2^e, 2^(e+1))` is rounded to a multiple of
`2^(e-23)`.  The exponent range is not limited; the values of line 123 stay inside it. -/
def roundFloat (q : ℚ) : ℚ :=
  let e : Int := Int.log 2 |q|
  roundHalfEven (q / 2 ^ (e - 23)) * 2 ^ (e - 23)

/-- The test of line 123, in `float` arithmetic: the `int` `diskCenter` is converted to
`float`, and every difference, product and sum is rounded.  The right-hand side
`diskCenter * diskCenter` is an `int` product, converted to `float` for the comparison; a
comparison with a coordinate that is not a finite number is false. -/
def insideDisk (x y : Coord) (diskCenter : Int) : Bool :=
  match x, y with
  | some x, some y =>
    let c := roundFloat (diskCenter : ℚ)
    let dx := roundFloat (x - c)
    let dy := roundFloat (y - c)
    decide (roundFloat (roundFloat (dx * dx) + roundFloat (dy * dy))
      ≤ roundFloat ((wrapInt (diskCenter * diskCenter) : Int) : ℚ))
  | _, _ => false

/-- Lines 112-134. -/
def ResampleSignalDisk (eval : RegularGrid → Coord → Coord → Cell) (input : RegularGrid)
    (resX resY : Nat) : RegularGrid :=
  let out := RegularGrid.resize resX resY
  let diskCenter : Int := ((usub input.res0 1 / 2 : Nat) : Int)
  forLoop resX (fun i out =>
    forLoop resY (fun j out =>
      let x := sampleCoord i resX input.res0
      let y := sampleCoord j resY input.res1
      if insideDisk x y diskCenter then out.assign i j (eval input x y)
      else out.assign i j Cell.posInf) out) out

/-! ## Command-line parameters -/

/-- A `Misha::CmdLineParameter`: whether the option was given, and its value. -/
structure CmdLineParameter (α : Type) where
  set : Bool
  value : α

/-- The global parameters of lines 44-48, as `Misha::CmdLineParse` leaves them.  `Verbose` and
`DiskSupport` are `CmdLineReadable` flags, which only record whether they were given. -/
structure Params (R : Type) where
  In : CmdLineParameter String
  Spec : CmdLineParameter String
  Out : CmdLineParameter String
  SourceNode : CmdLineParameter Int
  RadialBins : CmdLineParameter Int
  OutResolution : CmdLineParameter Int
  SourceFace : CmdLineParameter Int
  DistanceType : CmdLineParameter Int
  threshFactor : CmdLineParameter R
  Deviation : CmdLineParameter R
  BC : CmdLineParameter (R × R × R)
  Verbose : Bool
  DiskSupport : Bool

/-- The parameters as declared on lines 44-48, before any option is parsed.  The enumerator
`DISTANCE_BIHARMONIC` comes from `GetDescriptor.inl`; parameters declared without a default
are given the value zero here. -/
def globals (R : Type) [Field R] (DISTANCE_BIHARMONIC : Int) : Params R where
  In := ⟨false, ""⟩
  Spec := ⟨false, ""⟩
  Out := ⟨false, ""⟩
  SourceNode := ⟨false, 0⟩
  RadialBins := ⟨false, 5⟩
  OutResolution := ⟨false, 0⟩
  SourceFace := ⟨false, 0⟩
  DistanceType := ⟨false, DISTANCE_BIHARMONIC⟩
  threshFactor := ⟨false, 8 / 100⟩
  Deviation := ⟨false, -1⟩
  BC := ⟨false, (0, 0, 0)⟩
  Verbose := false
  DiskSupport := false

/-! ## The environment and the trace -/

/-- The per-face metric `tMesh` holds: none before an initialiser is called, or the biharmonic
one.  The driver calls a single initialiser, `initMetricsBiharmonic`. -/
inductive Metric where
  | unset
  | biharmonic
  deriving DecidableEq

/-- The query handed to `echo`: a vertex index, or a face index with barycentric
coordinates (the two overloads called on lines 194, 203 and 204). -/
inductive Query (R : Type) where
  | vertex (v : Int)
  | face (f : Int) (bc : R × R × R)

/-- What the driver takes from outside this file. -/
structure Env (R : Type) where
  /-- The function `std::sqrt`. -/
  sqrt : R → R
  /-- The constant `M_PI`. -/
  pi : R
  /-- The enumerator `DISTANCE_BIHARMONIC` of `GetDescriptor.inl`. -/
  DISTANCE_BIHARMONIC : Int
  /-- The value of `vertices.size()` once the mesh is read. -/
  numVertices : Nat
  /-- The value of `tMesh.totalArea()`. -/
  totalArea : R
  /-- The value returned by the call of `rand()` in iteration `k` of the loop of line 194. -/
  rand : Nat → Nat
  /-- The function `rand()` returns a non-negative `int`. -/
  rand_le : ∀ k, rand k ≤ 2147483647
  /-- The grid returned by `echo< float >`, given the metric in which `triangleGradients` was
  filled, the query, `rho`, `nRadialBins` and the distance type. -/
  echo : Option Metric → Query R → R → Int → Int → RegularGrid
  /-- The interpolating `operator()( x , y )` of `RegularGrid`. -/
  eval : RegularGrid → Coord → Coord → Cell
  /-- The composition `Misha::ToLower( Misha::GetFileExtension( . ) )`. -/
  extension : String → String

/-- The arguments of one call of `echo` after the mesh: the vector `triangleGradients`,
represented by the metric in which it was filled (`none` while it is empty), the query,
`rho`, `nRadialBins` and the distance type. -/
structure EchoCall (R : Type) where
  triangleGradients : Option Metric
  query : Query R
  rho : R
  nRadialBins : Int
  distanceType : Int

/-- The calls the driver makes, in order. -/
inductive Event (R : Type) where
  | showUsage
  | readTriangles (file : String)
  | readSpectralDecomposition (file : String)
  | setSpectralDecomposition
  | vertexHKS (t : R)
  | smoothVertexSignal (t : R)
  | initMetricsBiharmonic
  | metricGradient
  | initAreaBiharmonic
  | echo (triangleGradients : Option Metric) (query : Query R) (rho : R) (nRadialBins : Int)
      (distanceType : Int)
  | resampleSignalDisk (resX resY : Nat)
  | resampleSignal (resX resY : Nat)
  | transposeSignal
  | writeText (file : String) (F : RegularGrid)
  | writeImage (file : String) (F : RegularGrid) (width height : Int)

namespace Event

/-- A call of `echo`. -/
def isEcho {R : Type} : Event R → Bool
  | echo _ _ _ _ _ => true
  | _ => false

/-- The arguments of a call of `echo`. -/
def echoArgs {R : Type} : Event R → Option (EchoCall R)
  | echo triangleGradients query rho nRadialBins distanceType =>
    some ⟨triangleGradients, query, rho, nRadialBins, distanceType⟩
  | _ => none

/-- The resolutions handed to `ResampleSignal` or `ResampleSignalDisk`. -/
def resampleArgs {R : Type} : Event R → Option (Nat × Nat)
  | resampleSignalDisk resX resY => some (resX, resY)
  | resampleSignal resX resY => some (resX, resY)
  | _ => none

/-- A call of `ResampleSignal`, `ResampleSignalDisk` or `TransposeSignal`, or the writing of
the output file. -/
def isPostProcessing {R : Type} : Event R → Bool
  | resampleSignalDisk _ _ => true
  | resampleSignal _ _ => true
  | transposeSignal => true
  | writeText _ _ => true
  | writeImage _ _ _ _ => true
  | _ => false

end Event

/-! ## The metric of the mesh -/

/-- The state lines 180-183 act on: the metric `tMesh` holds, and the metric in which the
vector `triangleGradients` was filled (`none` while it is empty). -/
structure MeshState where
  metric : Metric
  triangleGradients : Option Metric

namespace MeshState

/-- The state when `run` starts. -/
def initial : MeshState := ⟨Metric.unset, none⟩

/-- Modelled from the spec: the effect on the metric of the calls of `TriMesh`, whose header
is not among the sources.  By section 4.3 the per-face tensor built for a distance semantics
"is later used as the inner product when computing gradients":
`initMetricsBiharmonic` installs the biharmonic tensor in the mesh, and `metricGradient`
fills the gradients in the tensor the mesh holds when it is called. -/
def step {R : Type} (s : MeshState) : Event R → MeshState
  | Event.initMetricsBiharmonic => { s with metric := Metric.biharmonic }
  | Event.metricGradient => { s with triangleGradients := some s.metric }
  | _ => s

/-- The state after the calls of a trace, in order. -/
def after {R : Type} (trace : List (Event R)) : MeshState :=
  trace.foldl step initial

end MeshState

/-- Modelled from the spec: whether gradients filled in the metric `g` go with the distance
type `d`, where `B` is the enumerator `DISTANCE_BIHARMONIC`: the biharmonic tensor is the
one built for the biharmonic semantics (section 4.3), so the gradients are consistent with
`d` when they were filled in the biharmonic metric exactly if `d` is `B`. -/
def metricMatches (B : Int) (g : Option Metric) (d : Int) : Prop :=
  g = some Metric.biharmonic ↔ d = B

/-! ## The driver -/

/-- Line 189, before the cast to `float`. -/
def supportRadius {R : Type} [Field R] (sqrt : R → R) (pi : R) (tauFactor totalMeshArea : R) :
    R :=
  tauFactor * sqrt (totalMeshArea / pi)

/-- Lines 146-187: the mesh is read, the spectrum read or computed, the heat kernel signature
computed and smoothed, and its gradient taken in the metric set up by
`tMesh.initMetricsBiharmonic()`. -/
def prepare {R : Type} [Field R] (p : Params R) : List (Event R) :=
  let mesh : List (Event R) := [Event.readTriangles p.In.value]
  let spectrum : List (Event R) :=
    if p.Spec.set then [Event.readSpectralDecomposition p.Spec.value]
    else [Event.setSpectralDecomposition]
  let hks : List (Event R) := [Event.vertexHKS (1 / 10), Event.smoothVertexSignal 10000000]
  let gradients : List (Event R) :=
    [Event.initMetricsBiharmonic, Event.metricGradient, Event.initAreaBiharmonic]
  mesh ++ spectrum ++ hks ++ gradients

/-- Lines 138-267.  The console messages and the timer are left out; the colouring of the
image pixels (lines 230-261) is summarised by the `writeImage` event. -/
def run {R : Type} [Field R] (env : Env R) (p : Params R) : List (Event R) :=
  let nRadialBins := p.RadialBins.value
  let trace := prepare p
  -- the vector `triangleGradients` as lines 146-187 leave it
  let triangleGradients := (MeshState.after trace).triangleGradients
  let rho := supportRadius env.sqrt env.pi p.threshFactor.value env.totalArea
  if p.SourceNode.set && decide (p.SourceNode.value < 0) then
    forLoop (wrapInt (-p.SourceNode.value)).toNat (fun i trace =>
      trace ++ [Event.echo triangleGradients
        (Query.vertex (wrapInt ((env.rand i % env.numVertices : Nat) : Int)))
        rho nRadialBins p.DistanceType.value]) trace
  else
    let query : Query R :=
      if p.SourceNode.set then Query.vertex p.SourceNode.value
      else Query.face p.SourceFace.value p.BC.value
    let F := env.echo triangleGradients query rho nRadialBins p.DistanceType.value
    let trace := trace ++
      [Event.echo triangleGradients query rho nRadialBins p.DistanceType.value]
    let res := toUnsigned p.OutResolution.value
    let F := if p.DiskSupport then ResampleSignalDisk env.eval F res res
      else ResampleSignal env.eval F res res
    let trace := trace ++
      [if p.DiskSupport then Event.resampleSignalDisk res res else Event.resampleSignal res res]
    let F := TransposeSignal F
    let trace := trace ++ [Event.transposeSignal]
    if p.Out.set then
      if env.extension p.Out.value = "txt" then trace ++ [Event.writeText p.Out.value F]
      else trace ++
        [Event.writeImage p.Out.value F p.OutResolution.value p.OutResolution.value]
    else trace

/-- The condition of line 273 under which `main` shows the usage text. -/
def usageError {R : Type} (p : Params R) : Bool :=
  !p.In.set || (!p.SourceNode.set && !p.SourceFace.set) || (p.SourceFace.set && !p.BC.set)

/-- What `main` leaves behind: the value it returns, the global `OutResolution`, and the calls
it made. -/
structure MainResult (R : Type) where
  ret : Int
  OutResolution : CmdLineParameter Int
  trace : List (Event R)

/-- Line 278: without `--resolution` the output resolution becomes `RadialBins.value * 2 + 1`,
an `int` expression. -/
def defaultResolution {R : Type} (p : Params R) : Params R :=
  if !p.OutResolution.set then
    { p with OutResolution := { p.OutResolution with
        value := wrapInt (p.RadialBins.value * 2 + 1) } }
  else p

/-- Lines 269-285, from the parameters as `Misha::CmdLineParse` leaves them. -/
def main {R : Type} [Field R] (env : Env R) (p : Params R) : MainResult R :=
  if usageError p then
    { ret := EXIT_FAILURE, OutResolution := p.OutResolution, trace := [Event.showUsage] }
  else
    let p := defaultResolution p
    { ret := 1, OutResolution := p.OutResolution, trace := run env p }

/-! ## Concrete inputs -/

/-- An interpolation that reads the stored cell at the integer part of the coordinates; at
integer coordinates it returns the stored cell. -/
def cellEval (g : RegularGrid) (x y : Coord) : Cell :=
  match x, y with
  | some x, some y => g.cell ⌊x⌋.toNat ⌊y⌋.toNat
  | _, _ => Cell.nan

/-- The `res × res` grid whose cell `(i, j)` holds the number `i * res + j`. -/
def indexGrid (res : Nat) : RegularGrid := ⟨res, res, fun i j => Cell.finite (i * res + j)⟩

/-- An environment with a mesh of 12 vertices: the call of `rand()` in iteration `k` returns
`7 * k` reduced below `32768`, and `echo` returns the
`(2n+1) × (2n+1)` grid `indexGrid (2n+1)` for `n` radial bins. -/
def sampleEnv (R : Type) (sqrt : R → R) (pi totalArea : R) : Env R where
  sqrt := sqrt
  pi := pi
  DISTANCE_BIHARMONIC := 0
  numVertices := 12
  totalArea := totalArea
  rand := fun k => 7 * k % 32768
  rand_le := fun k => by
    show 7 * k % 32768 ≤ 2147483647
    omega
  echo := fun _ _ _ nRadialBins _ => indexGrid (toUnsigned (nRadialBins * 2 + 1))
  eval := cellEval
  extension := fun file => file

/-- The parameters after parsing `--in mesh.ply --vertex v`. -/
def vertexParams (R : Type) [Field R] (v : Int) : Params R :=
  { globals R 0 with In := ⟨true, "mesh.ply"⟩, SourceNode := ⟨true, v⟩ }

/-- The parameters after parsing `--in mesh.ply --vertex 0 --rBins 1073741824`. -/
def hugeBinsParams : Params ℚ :=
  { vertexParams ℚ 0 with RadialBins := ⟨true, 1073741824⟩ }

/-- The parameters after parsing `--in mesh.ply --vertex 0 --rBins 0 --resolution 0`. -/
def zeroResolutionParams : Params ℚ :=
  { vertexParams ℚ 0 with RadialBins := ⟨true, 0⟩, OutResolution := ⟨true, 0⟩ }

/-- The parameters after parsing `--in mesh.ply --vertex 0 --distance d`. -/
def distanceParams (d : Int) : Params ℚ :=
  { vertexParams ℚ 0 with DistanceType := ⟨true, d⟩ }

/-! ## Lemmas on the machine integers -/

theorem wrapInt_eq_self {z : Int} (h0 : -2147483648 ≤ z) (h1 : z ≤ 2147483647) :
    wrapInt z = z := by
  unfold wrapInt
  omega

theorem toUnsigned_natCast {n : Nat} (h : n < 4294967296) : toUnsigned (n : Int) = n := by
  unfold toUnsigned
  omega

theorem usub_one {a : Nat} (h : 1 ≤ a) : usub a 1 = a - 1 := by
  unfold usub
  simp [h]

/-! ## Lemmas on the loops -/

theorem forLoop_zero {σ : Type} (body : Nat → σ → σ) (s : σ) : forLoop 0 body s = s := rfl

theorem forLoop_succ {σ : Type} (n : Nat) (body : Nat → σ → σ) (s : σ) :
    forLoop (n + 1) body s = body n (forLoop n body s) := by
  simp [forLoop, List.range_succ, List.foldl_append]

theorem ite_assign (c : Bool) (out : RegularGrid) (i j : Nat) (a b : Cell) :
    (if c then out.assign i j a else out.assign i j b)
      = out.assign i j (if c then a else b) := by
  cases c <;> rfl

/-- The inner loop of `ResampleSignal` writes row `i` up to column `m`. -/
theorem forLoop_assign_row (m i : Nat) (v : Nat → Cell) (out : RegularGrid) :
    forLoop m (fun j o => o.assign i j (v j)) out
      = { out with cell := fun a b => if a = i ∧ b < m then v b else out.cell a b } := by
  induction m with
  | zero => simp [forLoop_zero]
  | succ m ih =>
    rw [forLoop_succ, ih]
    simp only [RegularGrid.assign]
    congr 1
    funext a b
    by_cases ha : a = i
    · by_cases hb : b = m
      · simp [ha, hb]
      · by_cases hb2 : b < m
        · have : b < m + 1 := by omega
          simp [ha, hb, hb2, this]
        · have : ¬ b < m + 1 := by omega
          simp [ha, hb, hb2, this]
    · simp [ha]

/-- The two nested loops of `ResampleSignal` write every cell `(a, b)` with `a < n`, `b < m`. -/
theorem forLoop_assign_grid (n m : Nat) (v : Nat → Nat → Cell) (out : RegularGrid) :
    forLoop n (fun i o => forLoop m (fun j o => o.assign i j (v i j)) o) out
      = { out with cell := fun a b => if a < n ∧ b < m then v a b else out.cell a b } := by
  induction n with
  | zero => simp [forLoop_zero]
  | succ n ih =>
    rw [forLoop_succ, ih, forLoop_assign_row]
    congr 1
    funext a b
    by_cases ha : a = n
    · simp [ha]
    · by_cases ha2 : a < n
      · have : a < n + 1 := by omega
        simp [ha, ha2, this]
      · have : ¬ a < n + 1 := by omega
        simp [ha, ha2, this]

/-- The inner loop of `TransposeSignal` writes column `i` up to row `m`. -/
theorem forLoop_assign_col (m i : Nat) (v : Nat → Cell) (out : RegularGrid) :
    forLoop m (fun j o => o.assign j i (v j)) out
      = { out with cell := fun a b => if b = i ∧ a < m then v a else out.cell a b } := by
  induction m with
  | zero => simp [forLoop_zero]
  | succ m ih =>
    rw [forLoop_succ, ih]
    simp only [RegularGrid.assign]
    congr 1
    funext a b
    by_cases hb : b = i
    · by_cases ha : a = m
      · simp [ha, hb]
      · by_cases ha2 : a < m
        · have : a < m + 1 := by omega
          simp [ha, hb, ha2, this]
        · have : ¬ a < m + 1 := by omega
          simp [ha, hb, ha2, this]
    · simp [hb]

/-- The two nested loops of `TransposeSignal` write every cell `(a, b)` with `b < n`,
`a < m`. -/
theorem forLoop_assign_grid_swap (n m : Nat) (v : Nat → Nat → Cell) (out : RegularGrid) :
    forLoop n (fun i o => forLoop m (fun j o => o.assign j i (v i j)) o) out
      = { out with cell := fun a b => if b < n ∧ a < m then v b a else out.cell a b } := by
  induction n with
  | zero => simp [forLoop_zero]
  | succ n ih =>
    rw [forLoop_succ, ih, forLoop_assign_col]
    congr 1
    funext a b
    by_cases hb : b = n
    · simp [hb]
    · by_cases hb2 : b < n
      · have : b < n + 1 := by omega
        simp [hb, hb2, this]
      · have : ¬ b < n + 1 := by omega
        simp [hb, hb2, this]

/-- The grid `TransposeSignal` returns, cell by cell. -/
theorem TransposeSignal_eq (input : RegularGrid) :
    TransposeSignal input
      = { res0 := input.res1, res1 := input.res0,
          cell := fun a b =>
            if b < input.res0 ∧ a < input.res1 then input.cell b a else Cell.finite 0 } := by
  unfold TransposeSignal
  simp only [forLoop_assign_grid_swap]
  rfl

/-- The grid `ResampleSignal` returns, cell by cell. -/
theorem ResampleSignal_eq (eval : RegularGrid → Coord → Coord → Cell) (input : RegularGrid)
    (resX resY : Nat) :
    ResampleSignal eval input resX resY
      = { res0 := resX, res1 := resY,
          cell := fun a b =>
            if a < resX ∧ b < resY then
              eval input (sampleCoord a resX input.res0) (sampleCoord b resY input.res1)
            else Cell.finite 0 } := by
  unfold ResampleSignal
  simp only [forLoop_assign_grid]
  rfl

/-- The grid `ResampleSignalDisk` returns, cell by cell. -/
theorem ResampleSignalDisk_eq (eval : RegularGrid → Coord → Coord → Cell)
    (input : RegularGrid) (resX resY : Nat) :
    ResampleSignalDisk eval input resX resY
      = { res0 := resX, res1 := resY,
          cell := fun a b =>
            if a < resX ∧ b < resY then
              (if insideDisk (sampleCoord a resX input.res0) (sampleCoord b resY input.res1)
                  ((usub input.res0 1 / 2 : Nat) : Int)
                then eval input (sampleCoord a resX input.res0) (sampleCoord b resY input.res1)
                else Cell.posInf)
            else Cell.finite 0 } := by
  unfold ResampleSignalDisk
  simp only [ite_assign, forLoop_assign_grid]
  rfl

/-! ## Lemmas on the sample coordinates -/

theorem sampleCoord_eq {i resOut resIn : Nat} (hOut : 2 ≤ resOut) (hIn : 1 ≤ resIn) :
    sampleCoord i resOut resIn
      = some ((i : ℚ) / ((resOut : ℚ) - 1) * ((resIn : ℚ) - 1)) := by
  have h1 : usub resOut 1 = resOut - 1 := usub_one (by omega)
  have h2 : usub resIn 1 = resIn - 1 := usub_one hIn
  have h3 : resOut - 1 ≠ 0 := by omega
  unfold sampleCoord
  rw [h1, h2, if_neg h3, Nat.cast_sub (by omega), Nat.cast_sub hIn]
  simp

/-- With equal input and output resolution the sample coordinate is the index itself. -/
theorem sampleCoord_same (i n : Nat) (hn : 1 ≤ n) :
    sampleCoord i (2 * n + 1) (2 * n + 1) = some (i : ℚ) := by
  rw [sampleCoord_eq (by omega) (by omega)]
  have h : ((2 * n + 1 : Nat) : ℚ) - 1 ≠ 0 := by
    have : (0 : ℚ) < n := by exact_mod_cast hn
    push_cast
    linarith
  congr 1
  field_simp

theorem cellEval_natCast (g : RegularGrid) (i j : Nat) :
    cellEval g (some (i : ℚ)) (some (j : ℚ)) = g.cell i j := by
  simp [cellEval]

/-! ## Lemmas on the rounding to `float` -/

theorem roundHalfEven_intCast (z : Int) : roundHalfEven (z : ℚ) = z := by
  simp [roundHalfEven]

theorem floor_le_roundHalfEven (q : ℚ) : ⌊q⌋ ≤ roundHalfEven q := by
  unfold roundHalfEven
  split_ifs <;> omega

theorem log_eq_of_bounds {r : ℚ} {e : Int} (h0 : (2 : ℚ) ^ e ≤ r) (h1 : r < (2 : ℚ) ^ (e + 1)) :
    Int.log 2 r = e := by
  have hr : 0 < r := lt_of_lt_of_le (by positivity) h0
  have a : e ≤ Int.log 2 r := (Int.zpow_le_iff_le_log (by norm_num) hr).mp (by exact_mod_cast h0)
  have b : Int.log 2 r < e + 1 := (Int.lt_zpow_iff_log_lt (by norm_num) hr).mp (by exact_mod_cast h1)
  omega

theorem roundFloat_of_scaled (q : ℚ) (z : Int)
    (hz : q / 2 ^ (Int.log 2 |q| - 23) = z) : roundFloat q = q := by
  unfold roundFloat
  simp only [hz, roundHalfEven_intCast]
  rw [← hz]
  have : (2 : ℚ) ^ (Int.log 2 |q| - 23) ≠ 0 := by positivity
  field_simp

theorem roundFloat_intCast (z : Int) (h : |z| ≤ 16777216) : roundFloat (z : ℚ) = z := by
  by_cases h0 : z = 0
  · subst h0
    simp [roundFloat, roundHalfEven]
  obtain ⟨hlo, hhi⟩ := abs_le.mp h
  have habs : |(z : ℚ)| = ((z.natAbs : ℕ) : ℚ) := by
    rw [← Int.cast_abs]
    exact (Nat.cast_natAbs z).symm
  have hlog : Int.log 2 |(z : ℚ)| = (Nat.log 2 z.natAbs : ℕ) := by
    rw [habs, Int.log_natCast]
  have hna : z.natAbs ≤ 16777216 := by omega
  have hna0 : z.natAbs ≠ 0 := by omega
  have hk : Nat.log 2 z.natAbs < 25 := Nat.log_lt_of_lt_pow hna0 (by omega)
  have hlow : 2 ^ Nat.log 2 z.natAbs ≤ z.natAbs := Nat.pow_log_le_self 2 hna0
  generalize Nat.log 2 z.natAbs = k at hlog hk hlow
  by_cases hk23 : k ≤ 23
  · apply roundFloat_of_scaled _ (z * 2 ^ (23 - k))
    rw [hlog]
    have e1 : ((k : ℕ) : ℤ) - 23 = -(((23 - k : ℕ)) : ℤ) := by omega
    rw [e1, zpow_neg, zpow_natCast]
    push_cast
    field_simp
  · have hk24 : k = 24 := by omega
    subst hk24
    have hz : z.natAbs = 16777216 := by omega
    have hz2 : z = 16777216 ∨ z = -16777216 := by omega
    rcases hz2 with hz2 | hz2
    · apply roundFloat_of_scaled _ 8388608
      rw [hlog, hz2]
      norm_num
    · apply roundFloat_of_scaled _ (-8388608)
      rw [hlog, hz2]
      norm_num

theorem le_roundFloat (q : ℚ) (h : 16777216 ≤ q) : 16777216 ≤ roundFloat q := by
  have hq : 0 < q := by linarith
  have habs : |q| = q := abs_of_pos hq
  have he : (24 : ℤ) ≤ Int.log 2 q :=
    (Int.zpow_le_iff_le_log (by norm_num) hq).mp (by norm_num; linarith)
  have hle : (2 : ℚ) ^ Int.log 2 q ≤ q := by
    have := Int.zpow_log_le_self (b := 2) (by norm_num) hq
    exact_mod_cast this
  unfold roundFloat
  simp only [habs]
  generalize Int.log 2 q = e at he hle
  have hu : (0 : ℚ) < 2 ^ (e - 23) := by positivity
  have h23 : (8388608 : ℚ) ≤ q / 2 ^ (e - 23) := by
    rw [le_div_iff₀ hu]
    have : (8388608 : ℚ) * 2 ^ (e - 23) = 2 ^ e := by
      rw [zpow_sub₀ (by norm_num)]
      norm_num
      field_simp
    rw [this]
    exact hle
  have hfl : (8388608 : ℤ) ≤ ⌊q / 2 ^ (e - 23)⌋ := Int.le_floor.mpr (by exact_mod_cast h23)
  have hr : (8388608 : ℤ) ≤ roundHalfEven (q / 2 ^ (e - 23)) :=
    le_trans hfl (floor_le_roundHalfEven _)
  have hr2 : (8388608 : ℚ) ≤ (roundHalfEven (q / 2 ^ (e - 23)) : ℚ) := by exact_mod_cast hr
  have h2e : (16777216 : ℚ) ≤ 8388608 * 2 ^ (e - 23) := by
    have : (2 : ℚ) ^ (1 : ℤ) ≤ 2 ^ (e - 23) := zpow_le_zpow_right₀ (by norm_num) (by omega)
    norm_num at this
    linarith
  calc (16777216 : ℚ) ≤ 8388608 * 2 ^ (e - 23) := h2e
    _ ≤ roundHalfEven (q / 2 ^ (e - 23)) * 2 ^ (e - 23) :=
      mul_le_mul_of_nonneg_right hr2 hu.le

theorem roundFloat_16777217 : roundFloat 16777217 = 16777216 := by
  have hlog : Int.log 2 |(16777217 : ℚ)| = 24 := by
    rw [abs_of_pos (by norm_num)]
    exact log_eq_of_bounds (by norm_num) (by norm_num)
  unfold roundFloat
  simp only [hlog]
  have hfl : ⌊(16777217 : ℚ) / 2 ^ ((24 : ℤ) - 23)⌋ = 8388608 := by
    rw [Int.floor_eq_iff]
    norm_num
  have hr : roundHalfEven ((16777217 : ℚ) / 2 ^ ((24 : ℤ) - 23)) = 8388608 := by
    unfold roundHalfEven
    rw [hfl]
    norm_num
  rw [hr]
  norm_num

/-- Up to `diskCenter = 4095` every value of the test of line 123 at integer coordinates
`i, j ≤ 2 * diskCenter` is an integer that `float` represents, or a sum above `2^24` that
stays above `diskCenter^2` when it is rounded: the test is the test on the integers. -/
theorem insideDisk_natCast (i j n : Nat) (hmax : n ≤ 4095) (hi : i ≤ 2 * n) (hj : j ≤ 2 * n) :
    insideDisk (some (i : ℚ)) (some (j : ℚ)) (n : Int)
      = decide (((i : Int) - n) ^ 2 + ((j : Int) - n) ^ 2 ≤ (n : Int) ^ 2) := by
  have hn : (n : Int) ≤ 4095 := by exact_mod_cast hmax
  have hn0 : (0 : Int) ≤ n := Int.natCast_nonneg n
  have hnn : (n : Int) * n ≤ 16769025 := by nlinarith
  have hw : wrapInt ((n : Int) * n) = (n : Int) * n :=
    wrapInt_eq_self (by nlinarith) (by omega)
  have hc : roundFloat (((n : Int) : ℚ)) = ((n : Int) : ℚ) :=
    roundFloat_intCast _ (abs_le.mpr ⟨by omega, by omega⟩)
  have hdiff : ∀ k : Nat, k ≤ 2 * n →
      roundFloat ((k : ℚ) - ((n : Int) : ℚ)) = (((k : Int) - n : Int) : ℚ) ∧
      roundFloat ((((k : Int) - n : Int) : ℚ) * (((k : Int) - n : Int) : ℚ))
        = ((((k : Int) - n) * ((k : Int) - n) : Int) : ℚ) ∧
      0 ≤ ((k : Int) - n) * ((k : Int) - n) ∧
      ((k : Int) - n) * ((k : Int) - n) ≤ (n : Int) * n := by
    intro k hk
    have hk1 : ((k : Int) - n) ≤ n := by omega
    have hk2 : -(n : Int) ≤ (k : Int) - n := by omega
    have hsq : ((k : Int) - n) * ((k : Int) - n) ≤ (n : Int) * n := by nlinarith
    have hsq0 : 0 ≤ ((k : Int) - n) * ((k : Int) - n) := mul_self_nonneg _
    refine ⟨?_, ?_, hsq0, hsq⟩
    · have e : (k : ℚ) - ((n : Int) : ℚ) = (((k : Int) - n : Int) : ℚ) := by push_cast; ring
      rw [e]
      exact roundFloat_intCast _ (abs_le.mpr ⟨by omega, by omega⟩)
    · rw [← Int.cast_mul]
      exact roundFloat_intCast _ (abs_le.mpr ⟨by omega, by omega⟩)
  obtain ⟨hx, hxx, hx0, hx1⟩ := hdiff i hi
  obtain ⟨hy, hyy, hy0, hy1⟩ := hdiff j hj
  have hrhs : roundFloat ((((n : Int) * n : Int)) : ℚ) = (((n : Int) * n : Int) : ℚ) :=
    roundFloat_intCast _ (abs_le.mpr ⟨by omega, by omega⟩)
  unfold insideDisk
  simp only [hw, hc, hx, hy, hxx, hyy, hrhs]
  rw [← Int.cast_add]
  generalize hA : ((i : Int) - n) * ((i : Int) - n) = A at hx0 hx1
  generalize hB : ((j : Int) - n) * ((j : Int) - n) = B at hy0 hy1
  have hgoal : ((i : Int) - n) ^ 2 + ((j : Int) - n) ^ 2 = A + B := by
    rw [sq, sq, hA, hB]
  rw [hgoal, sq]
  apply decide_eq_decide.mpr
  by_cases hs : A + B ≤ 16777216
  · rw [roundFloat_intCast _ (abs_le.mpr ⟨by omega, hs⟩)]
    exact Int.cast_le
  · have hbig : (16777216 : ℚ) ≤ ((A + B : Int) : ℚ) := by
      have : (16777216 : Int) ≤ A + B := by omega
      exact_mod_cast this
    have hr := le_roundFloat _ hbig
    constructor
    · intro h
      have h2 : ((((n : Int) * n : Int)) : ℚ) ≤ 16769025 := by exact_mod_cast hnn
      linarith
    · intro h
      omega

/-! ## The claims on the grid functions -/

/-- C5: for every `n ≥ 1` and every `(2n+1) × (2n+1)` grid `F`, resampling `F` to the default
resolution `2n+1` with `ResampleSignal` and then applying `TransposeSignal` gives a
`(2n+1) × (2n+1)` grid whose cell `(j, i)` is `F(i, j)` for all `0 ≤ i, j ≤ 2n`, provided
the interpolating evaluation of `F` at integer coordinates returns the stored cell. -/
theorem C5_resample_then_transpose (eval : RegularGrid → Coord → Coord → Cell)
    (F : RegularGrid) (n : Nat) (hn : 1 ≤ n)
    (h0 : F.res0 = 2 * n + 1) (h1 : F.res1 = 2 * n + 1)
    (heval : ∀ i j : Nat, i < F.res0 → j < F.res1 →
      eval F (some (i : ℚ)) (some (j : ℚ)) = F.cell i j) :
    (TransposeSignal (ResampleSignal eval F (2 * n + 1) (2 * n + 1))).res0 = 2 * n + 1 ∧
    (TransposeSignal (ResampleSignal eval F (2 * n + 1) (2 * n + 1))).res1 = 2 * n + 1 ∧
    ∀ i j : Nat, i ≤ 2 * n → j ≤ 2 * n →
      (TransposeSignal (ResampleSignal eval F (2 * n + 1) (2 * n + 1))).cell j i
        = F.cell i j := by
  rw [TransposeSignal_eq, ResampleSignal_eq]
  refine ⟨rfl, rfl, ?_⟩
  intro i j hi hj
  have hi2 : i < 2 * n + 1 := by omega
  have hj2 : j < 2 * n + 1 := by omega
  simp only [hi2, hj2, and_self, if_true, h0, h1, sampleCoord_same _ _ hn]
  exact heval i j (by omega) (by omega)

/-- C5, at the `3 × 3` grid `indexGrid 3` with `n = 1`, evaluated with `cellEval`. -/
theorem C5_resample_then_transpose_witness :
    1 ≤ 1 ∧ (indexGrid 3).res0 = 2 * 1 + 1 ∧ (indexGrid 3).res1 = 2 * 1 + 1 ∧
    (∀ i j : Nat, i < (indexGrid 3).res0 → j < (indexGrid 3).res1 →
      cellEval (indexGrid 3) (some (i : ℚ)) (some (j : ℚ)) = (indexGrid 3).cell i j) ∧
    (TransposeSignal (ResampleSignal cellEval (indexGrid 3) (2 * 1 + 1) (2 * 1 + 1))).res0
        = 2 * 1 + 1 ∧
    (TransposeSignal (ResampleSignal cellEval (indexGrid 3) (2 * 1 + 1) (2 * 1 + 1))).res1
        = 2 * 1 + 1 ∧
    ∀ i j : Nat, i ≤ 2 * 1 → j ≤ 2 * 1 →
      (TransposeSignal (ResampleSignal cellEval (indexGrid 3) (2 * 1 + 1) (2 * 1 + 1))).cell j i
        = (indexGrid 3).cell i j :=
  ⟨by decide, rfl, rfl, fun i j _ _ => cellEval_natCast (indexGrid 3) i j,
    C5_resample_then_transpose cellEval (indexGrid 3) 1 (by decide) rfl rfl
      (fun i j _ _ => cellEval_natCast (indexGrid 3) i j)⟩

/-- C9: for every input grid with both resolutions at least 1 and every target resolution
`resX, resY ≥ 2`, the coordinates `(x, y)` at which `ResampleSignal` evaluates the input for
the output cell `(i, j)` are finite and satisfy `0 ≤ x ≤ res(0) - 1`, `0 ≤ y ≤ res(1) - 1`;
output index 0 is sent to coordinate 0 and the last output index to the last input
coordinate. -/
theorem C9_sample_coordinates_in_domain (eval : RegularGrid → Coord → Coord → Cell)
    (input : RegularGrid) (resX resY i j : Nat)
    (h0 : 1 ≤ input.res0) (h1 : 1 ≤ input.res1) (hX : 2 ≤ resX) (hY : 2 ≤ resY)
    (hi : i < resX) (hj : j < resY) :
    ∃ x y : ℚ,
      sampleCoord i resX input.res0 = some x ∧ sampleCoord j resY input.res1 = some y ∧
      (ResampleSignal eval input resX resY).cell i j = eval input (some x) (some y) ∧
      0 ≤ x ∧ x ≤ (input.res0 : ℚ) - 1 ∧ 0 ≤ y ∧ y ≤ (input.res1 : ℚ) - 1 ∧
      (i = 0 → x = 0) ∧ (i = resX - 1 → x = (input.res0 : ℚ) - 1) ∧
      (j = 0 → y = 0) ∧ (j = resY - 1 → y = (input.res1 : ℚ) - 1) := by
  have key : ∀ k resOut resIn : Nat, 2 ≤ resOut → 1 ≤ resIn → k < resOut →
      0 ≤ (k : ℚ) / ((resOut : ℚ) - 1) * ((resIn : ℚ) - 1) ∧
      (k : ℚ) / ((resOut : ℚ) - 1) * ((resIn : ℚ) - 1) ≤ (resIn : ℚ) - 1 ∧
      (k = 0 → (k : ℚ) / ((resOut : ℚ) - 1) * ((resIn : ℚ) - 1) = 0) ∧
      (k = resOut - 1 →
        (k : ℚ) / ((resOut : ℚ) - 1) * ((resIn : ℚ) - 1) = (resIn : ℚ) - 1) := by
    intro k resOut resIn hOut hIn hk
    have hd : (0 : ℚ) < (resOut : ℚ) - 1 := by
      have : (2 : ℚ) ≤ resOut := by exact_mod_cast hOut
      linarith
    have hr : (0 : ℚ) ≤ (resIn : ℚ) - 1 := by
      have : (1 : ℚ) ≤ resIn := by exact_mod_cast hIn
      linarith
    have hk0 : (0 : ℚ) ≤ k := by exact_mod_cast Nat.zero_le k
    have hk1 : (k : ℚ) ≤ (resOut : ℚ) - 1 := by
      have : (k : ℚ) + 1 ≤ resOut := by exact_mod_cast hk
      linarith
    have hq0 : 0 ≤ (k : ℚ) / ((resOut : ℚ) - 1) := div_nonneg hk0 hd.le
    have hq1 : (k : ℚ) / ((resOut : ℚ) - 1) ≤ 1 := (div_le_one hd).mpr hk1
    refine ⟨mul_nonneg hq0 hr, ?_, ?_, ?_⟩
    · calc (k : ℚ) / ((resOut : ℚ) - 1) * ((resIn : ℚ) - 1)
          ≤ 1 * ((resIn : ℚ) - 1) := mul_le_mul_of_nonneg_right hq1 hr
        _ = (resIn : ℚ) - 1 := one_mul _
    · intro hk
      simp [hk]
    · intro hk
      have : (k : ℚ) = (resOut : ℚ) - 1 := by
        rw [hk, Nat.cast_sub (by omega)]
        simp
      rw [this, div_self hd.ne', one_mul]
  obtain ⟨ax, bx, cx, dx⟩ := key i resX input.res0 hX h0 hi
  obtain ⟨ay, bY, cy, dy⟩ := key j resY input.res1 hY h1 hj
  refine ⟨_, _, sampleCoord_eq hX h0, sampleCoord_eq hY h1, ?_, ax, bx, ay, bY, cx, dx, cy, dy⟩
  rw [ResampleSignal_eq]
  simp only [hi, hj, and_self, if_true, sampleCoord_eq hX h0, sampleCoord_eq hY h1]

/-- C8, as amended: for every `n` with `1 ≤ n ≤ 4095` and every `(2n+1) × (2n+1)` grid `F`,
`ResampleSignalDisk(F, 2n+1, 2n+1)` is a `(2n+1) × (2n+1)` grid whose cell `(i, j)` is `F`
evaluated at `(i, j)` when `(i-n)^2 + (j-n)^2 ≤ n^2` and `+infinity` otherwise; the four
corner cells are the sentinel.  When the interpolating evaluation of `F` at integer
coordinates returns the stored cell, the kept cells are the stored cells `F(i, j)`, among
them the centre cell and the four axis end cells. -/
theorem C8_disk_mask (eval : RegularGrid → Coord → Coord → Cell)
    (F : RegularGrid) (n : Nat) (hn : 1 ≤ n) (hmax : n ≤ 4095)
    (h0 : F.res0 = 2 * n + 1) (h1 : F.res1 = 2 * n + 1) :
    (ResampleSignalDisk eval F (2 * n + 1) (2 * n + 1)).res0 = 2 * n + 1 ∧
    (ResampleSignalDisk eval F (2 * n + 1) (2 * n + 1)).res1 = 2 * n + 1 ∧
    (∀ i j : Nat, i ≤ 2 * n → j ≤ 2 * n →
      (ResampleSignalDisk eval F (2 * n + 1) (2 * n + 1)).cell i j
        = if ((i : Int) - n) ^ 2 + ((j : Int) - n) ^ 2 ≤ (n : Int) ^ 2
          then eval F (some (i : ℚ)) (some (j : ℚ)) else Cell.posInf) ∧
    (ResampleSignalDisk eval F (2 * n + 1) (2 * n + 1)).cell 0 0 = Cell.posInf ∧
    (ResampleSignalDisk eval F (2 * n + 1) (2 * n + 1)).cell 0 (2 * n) = Cell.posInf ∧
    (ResampleSignalDisk eval F (2 * n + 1) (2 * n + 1)).cell (2 * n) 0 = Cell.posInf ∧
    (ResampleSignalDisk eval F (2 * n + 1) (2 * n + 1)).cell (2 * n) (2 * n)
      = Cell.posInf ∧
    ((∀ i j : Nat, i < F.res0 → j < F.res1 →
        eval F (some (i : ℚ)) (some (j : ℚ)) = F.cell i j) →
      (∀ i j : Nat, i ≤ 2 * n → j ≤ 2 * n →
        (ResampleSignalDisk eval F (2 * n + 1) (2 * n + 1)).cell i j
          = if ((i : Int) - n) ^ 2 + ((j : Int) - n) ^ 2 ≤ (n : Int) ^ 2 then F.cell i j
            else Cell.posInf) ∧
      (ResampleSignalDisk eval F (2 * n + 1) (2 * n + 1)).cell n n = F.cell n n ∧
      (ResampleSignalDisk eval F (2 * n + 1) (2 * n + 1)).cell 0 n = F.cell 0 n ∧
      (ResampleSignalDisk eval F (2 * n + 1) (2 * n + 1)).cell (2 * n) n = F.cell (2 * n) n ∧
      (ResampleSignalDisk eval F (2 * n + 1) (2 * n + 1)).cell n 0 = F.cell n 0 ∧
      (ResampleSignalDisk eval F (2 * n + 1) (2 * n + 1)).cell n (2 * n)
        = F.cell n (2 * n)) := by
  have hc : ((usub (2 * n + 1) 1 / 2 : Nat) : Int) = (n : Int) := by
    rw [usub_one (by omega)]
    have : (2 * n + 1 - 1) / 2 = n := by omega
    rw [this]
  have cellAt : ∀ i j : Nat, i ≤ 2 * n → j ≤ 2 * n →
      (ResampleSignalDisk eval F (2 * n + 1) (2 * n + 1)).cell i j
        = if ((i : Int) - n) ^ 2 + ((j : Int) - n) ^ 2 ≤ (n : Int) ^ 2
          then eval F (some (i : ℚ)) (some (j : ℚ)) else Cell.posInf := by
    intro i j hi hj
    have hi2 : i < 2 * n + 1 := by omega
    have hj2 : j < 2 * n + 1 := by omega
    rw [ResampleSignalDisk_eq]
    simp only [hi2, hj2, and_self, if_true, hc, h0, h1, sampleCoord_same _ _ hn,
      insideDisk_natCast _ _ _ hmax hi hj, decide_eq_true_eq]
  have hn1 : (1 : Int) ≤ n := by exact_mod_cast hn
  have drop : ∀ i j : Nat, i ≤ 2 * n → j ≤ 2 * n →
      ¬ ((i : Int) - n) ^ 2 + ((j : Int) - n) ^ 2 ≤ (n : Int) ^ 2 →
      (ResampleSignalDisk eval F (2 * n + 1) (2 * n + 1)).cell i j = Cell.posInf := by
    intro i j hi hj h
    rw [cellAt i j hi hj, if_neg h]
  refine ⟨?_, ?_, cellAt, ?_, ?_, ?_, ?_, ?_⟩
  · rw [ResampleSignalDisk_eq]
  · rw [ResampleSignalDisk_eq]
  · exact drop 0 0 (by omega) (by omega) (by push_cast; nlinarith)
  · exact drop 0 (2 * n) (by omega) (by omega) (by push_cast; nlinarith)
  · exact drop (2 * n) 0 (by omega) (by omega) (by push_cast; nlinarith)
  · exact drop (2 * n) (2 * n) (by omega) (by omega) (by push_cast; nlinarith)
  · intro heval
    have stored : ∀ i j : Nat, i ≤ 2 * n → j ≤ 2 * n →
        (ResampleSignalDisk eval F (2 * n + 1) (2 * n + 1)).cell i j
          = if ((i : Int) - n) ^ 2 + ((j : Int) - n) ^ 2 ≤ (n : Int) ^ 2 then F.cell i j
            else Cell.posInf := by
      intro i j hi hj
      rw [cellAt i j hi hj, heval i j (by omega) (by omega)]
    have keep : ∀ i j : Nat, i ≤ 2 * n → j ≤ 2 * n →
        ((i : Int) - n) ^ 2 + ((j : Int) - n) ^ 2 ≤ (n : Int) ^ 2 →
        (ResampleSignalDisk eval F (2 * n + 1) (2 * n + 1)).cell i j = F.cell i j := by
      intro i j hi hj h
      rw [stored i j hi hj, if_pos h]
    refine ⟨stored, ?_, ?_, ?_, ?_, ?_⟩
    · exact keep n n (by omega) (by omega) (by nlinarith)
    · exact keep 0 n (by omega) (by omega) (by push_cast; nlinarith)
    · exact keep (2 * n) n (by omega) (by omega) (by push_cast; nlinarith)
    · exact keep n 0 (by omega) (by omega) (by push_cast; nlinarith)
    · exact keep n (2 * n) (by omega) (by omega) (by push_cast; nlinarith)

/-- C8 as amended, at the `3 × 3` grid `indexGrid 3` with `n = 1`, evaluated with `cellEval`:
the centre cell is the stored one and the corner cell `(0, 0)` is the sentinel. -/
theorem C8_disk_mask_witness :
    1 ≤ 1 ∧ 1 ≤ 4095 ∧ (indexGrid 3).res0 = 2 * 1 + 1 ∧ (indexGrid 3).res1 = 2 * 1 + 1 ∧
    (ResampleSignalDisk cellEval (indexGrid 3) (2 * 1 + 1) (2 * 1 + 1)).cell 1 1
      = (indexGrid 3).cell 1 1 ∧
    (ResampleSignalDisk cellEval (indexGrid 3) (2 * 1 + 1) (2 * 1 + 1)).cell 0 0
      = Cell.posInf :=
  have h := C8_disk_mask cellEval (indexGrid 3) 1 (by decide) (by decide) rfl rfl
  ⟨by decide, by decide, rfl, rfl,
    (h.2.2.2.2.2.2.2 (fun i j _ _ => cellEval_natCast (indexGrid 3) i j)).2.1, h.2.2.2.1⟩

/-- C8 as stated fails at `n = 4096`: for the `8193 × 8193` grid `indexGrid 8193` (evaluated
with `cellEval`, which returns the stored cell at integer coordinates) the cell `(0, 4097)`
has `(i-n)^2 + (j-n)^2 = 2^24 + 1 > n^2 = 2^24`, yet `ResampleSignalDisk` keeps the stored
cell there and does not write `+infinity`: in `float` arithmetic the sum `2^24 + 1` of
line 123 is rounded to `2^24`. -/
theorem C8_counterexample :
    (indexGrid 8193).res0 = 2 * 4096 + 1 ∧ (indexGrid 8193).res1 = 2 * 4096 + 1 ∧
    ¬ (((0 : Int) - 4096) ^ 2 + ((4097 : Int) - 4096) ^ 2 ≤ (4096 : Int) ^ 2) ∧
    roundFloat (16777216 + 1) = 16777216 ∧
    (ResampleSignalDisk cellEval (indexGrid 8193) (2 * 4096 + 1) (2 * 4096 + 1)).cell 0 4097
      = (indexGrid 8193).cell 0 4097 ∧
    (ResampleSignalDisk cellEval (indexGrid 8193) (2 * 4096 + 1) (2 * 4096 + 1)).cell 0 4097
      ≠ Cell.posInf := by
  have h17 : roundFloat (16777216 + 1) = 16777216 := by
    have := roundFloat_16777217
    norm_num at this ⊢
    exact this
  have hc : sampleCoord 0 (2 * 4096 + 1) (indexGrid 8193).res0 = some ((0 : Nat) : ℚ) :=
    sampleCoord_same 0 4096 (by decide)
  have hc1 : sampleCoord 4097 (2 * 4096 + 1) (indexGrid 8193).res1
      = some ((4097 : Nat) : ℚ) := sampleCoord_same 4097 4096 (by decide)
  have hd : ((usub (indexGrid 8193).res0 1 / 2 : Nat) : Int) = 4096 := by decide
  have hw : wrapInt (4096 * 4096) = 16777216 := by decide
  have r4096 : roundFloat (4096 : ℚ) = 4096 := by
    simpa using roundFloat_intCast 4096 (by norm_num)
  have rneg : roundFloat (-4096 : ℚ) = -4096 := by
    simpa using roundFloat_intCast (-4096) (by norm_num)
  have r1 : roundFloat (1 : ℚ) = 1 := by
    simpa using roundFloat_intCast 1 (by norm_num)
  have rbig : roundFloat (16777216 : ℚ) = 16777216 := by
    simpa using roundFloat_intCast 16777216 (by norm_num)
  have hin : insideDisk (some ((0 : Nat) : ℚ)) (some ((4097 : Nat) : ℚ)) 4096 = true := by
    unfold insideDisk
    simp only [hw]
    norm_num [r4096, rneg, r1, rbig, roundFloat_16777217]
  have hcell : (ResampleSignalDisk cellEval (indexGrid 8193) (2 * 4096 + 1) (2 * 4096 + 1)).cell
      0 4097 = (indexGrid 8193).cell 0 4097 := by
    rw [ResampleSignalDisk_eq]
    simp only [hc, hc1, hd, hin, if_true]
    rw [if_pos (by decide)]
    exact cellEval_natCast (indexGrid 8193) 0 4097
  refine ⟨rfl, rfl, by decide, h17, hcell, ?_⟩
  rw [hcell]
  simp [indexGrid]

/-! ## Lemmas on the driver -/

theorem forLoop_append {α : Type} (n : Nat) (f : Nat → α) (t : List α) :
    forLoop n (fun i trace => trace ++ [f i]) t = t ++ (List.range n).map f := by
  induction n with
  | zero => simp [forLoop_zero]
  | succ n ih => simp [forLoop_succ, ih, List.range_succ]

theorem map_range_const {α : Type} (k : Nat) (a : α) :
    (List.range k).map (fun _ => a) = List.replicate k a := by
  rw [List.eq_replicate_iff]
  simp

/-- The preparation does not read the distance type. -/
theorem prepare_DistanceType {R : Type} [Field R] (p : Params R) (d : CmdLineParameter Int) :
    prepare { p with DistanceType := d } = prepare p := rfl

/-- Lines 146-187 call `initMetricsBiharmonic` before `metricGradient`: the vector
`triangleGradients` is filled in the biharmonic metric. -/
theorem triangleGradients_prepare {R : Type} [Field R] (p : Params R) :
    (MeshState.after (prepare p)).triangleGradients = some Metric.biharmonic := by
  unfold prepare
  cases p.Spec.set <;> rfl

/-- In batch mode the trace is the preparation followed by one call of `echo` for each
iteration of the loop of line 194. -/
theorem run_batch {R : Type} [Field R] (env : Env R) (p : Params R)
    (h : (p.SourceNode.set && decide (p.SourceNode.value < 0)) = true) :
    run env p = prepare p ++ (List.range (wrapInt (-p.SourceNode.value)).toNat).map
      (fun i => Event.echo (some Metric.biharmonic)
        (Query.vertex (wrapInt ((env.rand i % env.numVertices : Nat) : Int)))
        (supportRadius env.sqrt env.pi p.threshFactor.value env.totalArea)
        p.RadialBins.value p.DistanceType.value) := by
  unfold run
  simp only [h, if_true, forLoop_append, triangleGradients_prepare]

theorem prepare_echoArgs {R : Type} [Field R] (p : Params R) :
    (prepare p).filterMap Event.echoArgs = [] := by
  unfold prepare
  cases p.Spec.set <;> simp [Event.echoArgs]

theorem prepare_resampleArgs {R : Type} [Field R] (p : Params R) :
    (prepare p).filterMap Event.resampleArgs = [] := by
  unfold prepare
  cases p.Spec.set <;> simp [Event.resampleArgs]

theorem prepare_isPostProcessing {R : Type} [Field R] (p : Params R) :
    (prepare p).filter Event.isPostProcessing = [] := by
  unfold prepare
  cases p.Spec.set <;> simp [Event.isPostProcessing]

theorem showUsage_not_mem_prepare {R : Type} [Field R] (p : Params R) :
    Event.showUsage ∉ prepare p := by
  unfold prepare
  cases p.Spec.set <;> simp

theorem initMetricsBiharmonic_mem_prepare {R : Type} [Field R] (p : Params R) :
    Event.initMetricsBiharmonic ∈ prepare p := by
  unfold prepare
  simp

/-- In batch mode the calls of `echo` are one per iteration of the loop of line 194. -/
theorem run_batch_echoArgs {R : Type} [Field R] (env : Env R) (p : Params R)
    (h : (p.SourceNode.set && decide (p.SourceNode.value < 0)) = true) :
    (run env p).filterMap Event.echoArgs
      = (List.range (wrapInt (-p.SourceNode.value)).toNat).map
        (fun i => (⟨some Metric.biharmonic,
          Query.vertex (wrapInt ((env.rand i % env.numVertices : Nat) : Int)),
          supportRadius env.sqrt env.pi p.threshFactor.value env.totalArea,
          p.RadialBins.value, p.DistanceType.value⟩ : EchoCall R)) := by
  rw [run_batch env p h, List.filterMap_append, prepare_echoArgs, List.nil_append,
    List.filterMap_map]
  rw [← List.filterMap_eq_map]
  rfl

theorem run_batch_isPostProcessing {R : Type} [Field R] (env : Env R) (p : Params R)
    (h : (p.SourceNode.set && decide (p.SourceNode.value < 0)) = true) :
    (run env p).filter Event.isPostProcessing = [] := by
  rw [run_batch env p h, List.filter_append, prepare_isPostProcessing, List.nil_append]
  simp [List.filter_eq_nil_iff, Event.isPostProcessing]

/-- Outside batch mode `echo` is called once, with the vertex query when `--vertex` is set and
the face query otherwise. -/
theorem run_single_echoArgs {R : Type} [Field R] (env : Env R) (p : Params R)
    (h : (p.SourceNode.set && decide (p.SourceNode.value < 0)) = false) :
    (run env p).filterMap Event.echoArgs
      = [(⟨some Metric.biharmonic,
          if p.SourceNode.set then Query.vertex p.SourceNode.value
          else Query.face p.SourceFace.value p.BC.value,
          supportRadius env.sqrt env.pi p.threshFactor.value env.totalArea,
          p.RadialBins.value, p.DistanceType.value⟩ : EchoCall R)] := by
  unfold run
  simp only [h, triangleGradients_prepare]
  cases p.Out.set <;> cases p.DiskSupport <;>
    by_cases hx : env.extension p.Out.value = "txt" <;>
    simp [hx, List.filterMap_append, prepare_echoArgs, Event.echoArgs]

/-- Outside batch mode the descriptor is resampled once, to the output resolution converted
to `unsigned int`. -/
theorem run_single_resampleArgs {R : Type} [Field R] (env : Env R) (p : Params R)
    (h : (p.SourceNode.set && decide (p.SourceNode.value < 0)) = false) :
    (run env p).filterMap Event.resampleArgs
      = [(toUnsigned p.OutResolution.value, toUnsigned p.OutResolution.value)] := by
  unfold run
  simp only [h]
  cases p.Out.set <;> cases p.DiskSupport <;>
    by_cases hx : env.extension p.Out.value = "txt" <;>
    simp [hx, List.filterMap_append, prepare_resampleArgs, Event.resampleArgs]

theorem showUsage_not_mem_run {R : Type} [Field R] (env : Env R) (p : Params R) :
    Event.showUsage ∉ run env p := by
  have hm := showUsage_not_mem_prepare p
  unfold run
  simp only [forLoop_append]
  split
  · simp [hm]
  · cases p.DiskSupport <;> (split <;> [split; skip]) <;> simp [hm]

theorem readTriangles_mem_prepare {R : Type} [Field R] (p : Params R) :
    Event.readTriangles p.In.value ∈ prepare p := by
  unfold prepare
  simp

theorem readTriangles_mem_run {R : Type} [Field R] (env : Env R) (p : Params R) :
    Event.readTriangles p.In.value ∈ run env p := by
  have hm := readTriangles_mem_prepare p
  unfold run
  simp only [forLoop_append]
  split
  · exact List.mem_append_left _ hm
  · split
    · split <;> simp [hm]
    · simp [hm]

theorem initMetricsBiharmonic_mem_run {R : Type} [Field R] (env : Env R) (p : Params R) :
    Event.initMetricsBiharmonic ∈ run env p := by
  have hm := initMetricsBiharmonic_mem_prepare p
  unfold run
  simp only [forLoop_append]
  split
  · exact List.mem_append_left _ hm
  · split
    · split <;> simp [hm]
    · simp [hm]

theorem defaultResolution_fields {R : Type} (p : Params R) :
    (defaultResolution p).SourceNode = p.SourceNode ∧
    (defaultResolution p).SourceFace = p.SourceFace ∧
    (defaultResolution p).BC = p.BC ∧
    (defaultResolution p).RadialBins = p.RadialBins ∧
    (defaultResolution p).DistanceType = p.DistanceType ∧
    (defaultResolution p).threshFactor = p.threshFactor ∧
    (defaultResolution p).In = p.In := by
  unfold defaultResolution
  split <;> simp

theorem usageError_eq_true_iff {R : Type} (p : Params R) :
    usageError p = true ↔
      (p.In.set = false ∨ (p.SourceNode.set = false ∧ p.SourceFace.set = false) ∨
        (p.SourceFace.set = true ∧ p.BC.set = false)) := by
  unfold usageError
  cases p.In.set <;> cases p.SourceNode.set <;> cases p.SourceFace.set <;> cases p.BC.set <;>
    simp

theorem main_of_usageError {R : Type} [Field R] (env : Env R) (p : Params R)
    (h : usageError p = true) :
    main env p
      = { ret := EXIT_FAILURE, OutResolution := p.OutResolution, trace := [Event.showUsage] } := by
  unfold main
  simp [h]

theorem main_of_not_usageError {R : Type} [Field R] (env : Env R) (p : Params R)
    (h : usageError p = false) :
    main env p
      = { ret := 1, OutResolution := (defaultResolution p).OutResolution,
          trace := run env (defaultResolution p) } := by
  unfold main
  simp [h]

/-! ## The claims on the driver -/

/-- C10: `main` returns 1 when the arguments pass the check of line 273 and `run` completes,
which is the value of `EXIT_FAILURE` it returns on a usage error; `main` never returns 0. -/
theorem C10_main_always_returns_one {R : Type} [Field R] (env : Env R) (p : Params R) :
    (main env p).ret = 1 ∧ (main env p).ret = EXIT_FAILURE ∧ (main env p).ret ≠ 0 ∧
    (usageError p = false →
      (main env p).ret = 1 ∧ (main env p).trace = run env (defaultResolution p)) ∧
    (usageError p = true →
      (main env p).ret = EXIT_FAILURE ∧ (main env p).trace = [Event.showUsage]) := by
  cases h : usageError p
  · rw [main_of_not_usageError env p h]
    simp [EXIT_FAILURE]
  · rw [main_of_usageError env p h]
    simp [EXIT_FAILURE]

/-- C4: `main` shows the usage text and returns `EXIT_FAILURE` without running the pipeline
exactly when `--in` is missing, or neither `--vertex` nor `--tri` is given, or `--tri` is
given without `--bc`.  In every other case the pipeline is run and the usage text is not
shown; every call of `echo` takes a vertex query when `--vertex` is set (the given vertex
when its value is not negative), and otherwise the single call takes the face query built
from `--tri` and `--bc`. -/
theorem C4_usage_or_pipeline {R : Type} [Field R] (env : Env R) (p : Params R) :
    (((main env p).trace = [Event.showUsage] ∧ (main env p).ret = EXIT_FAILURE) ↔
      (p.In.set = false ∨ (p.SourceNode.set = false ∧ p.SourceFace.set = false) ∨
        (p.SourceFace.set = true ∧ p.BC.set = false))) ∧
    (¬ (p.In.set = false ∨ (p.SourceNode.set = false ∧ p.SourceFace.set = false) ∨
        (p.SourceFace.set = true ∧ p.BC.set = false)) →
      (main env p).trace = run env (defaultResolution p) ∧
      Event.showUsage ∉ (main env p).trace ∧
      Event.readTriangles p.In.value ∈ (main env p).trace ∧
      (p.SourceNode.set = true →
        ∀ c ∈ (main env p).trace.filterMap Event.echoArgs, ∃ v, c.query = Query.vertex v) ∧
      (p.SourceNode.set = true → 0 ≤ p.SourceNode.value →
        ((main env p).trace.filterMap Event.echoArgs).map EchoCall.query
          = [Query.vertex p.SourceNode.value]) ∧
      (p.SourceNode.set = false →
        ((main env p).trace.filterMap Event.echoArgs).map EchoCall.query
          = [Query.face p.SourceFace.value p.BC.value])) := by
  obtain ⟨hN, hF, hB, -, -, -, hI⟩ := defaultResolution_fields p
  constructor
  · rw [← usageError_eq_true_iff]
    cases h : usageError p
    · rw [main_of_not_usageError env p h]
      simp only [Bool.false_eq_true, iff_false, not_and]
      intro ht
      have := showUsage_not_mem_run env (defaultResolution p)
      rw [ht] at this
      simp at this
    · rw [main_of_usageError env p h]
      simp
  · intro hc
    have h : usageError p = false := by
      rw [← usageError_eq_true_iff] at hc
      simpa using hc
    rw [main_of_not_usageError env p h]
    refine ⟨rfl, showUsage_not_mem_run env _, ?_, ?_, ?_, ?_⟩
    · have hmem := readTriangles_mem_run env (defaultResolution p)
      rwa [hI] at hmem
    · intro hset c hcmem
      cases hb : ((defaultResolution p).SourceNode.set &&
          decide ((defaultResolution p).SourceNode.value < 0))
      · rw [run_single_echoArgs env _ hb] at hcmem
        simp only [List.mem_singleton] at hcmem
        rw [hcmem, hN]
        simp [hset]
      · rw [run_batch_echoArgs env _ hb] at hcmem
        simp only [List.mem_map] at hcmem
        obtain ⟨i, -, hi⟩ := hcmem
        rw [← hi]
        exact ⟨_, rfl⟩
    · intro hset hv
      have hb : ((defaultResolution p).SourceNode.set &&
          decide ((defaultResolution p).SourceNode.value < 0)) = false := by
        rw [hN]
        simp [hv]
      rw [run_single_echoArgs env _ hb, hN]
      simp [hset]
    · intro hset
      have hb : ((defaultResolution p).SourceNode.set &&
          decide ((defaultResolution p).SourceNode.value < 0)) = false := by
        rw [hN]
        simp [hset]
      rw [run_single_echoArgs env _ hb, hN, hF, hB]
      simp [hset]

/-- C2, as amended: when the arguments pass the check of line 273 and `--resolution` is not
given, `main` sets the output resolution to the `int` value of `RadialBins.value * 2 + 1`,
which is `2 * rBins + 1` for every `rBins` from `-1073741824` to `1073741823`, and 11 for
the declared default `rBins = 5`; when `--resolution` is given its value is left
unchanged.  The pipeline runs with that resolution. -/
theorem C2_default_resolution {R : Type} [Field R] (env : Env R) (p : Params R)
    (hok : usageError p = false) :
    (p.OutResolution.set = false →
      (main env p).OutResolution.value = wrapInt (p.RadialBins.value * 2 + 1) ∧
      (-1073741824 ≤ p.RadialBins.value → p.RadialBins.value ≤ 1073741823 →
        (main env p).OutResolution.value = 2 * p.RadialBins.value + 1) ∧
      (p.RadialBins.value = (globals R env.DISTANCE_BIHARMONIC).RadialBins.value →
        (main env p).OutResolution.value = 11)) ∧
    (p.OutResolution.set = true → (main env p).OutResolution = p.OutResolution) ∧
    (main env p).trace = run env (defaultResolution p) ∧
    (defaultResolution p).OutResolution = (main env p).OutResolution := by
  rw [main_of_not_usageError env p hok]
  refine ⟨?_, ?_, rfl, rfl⟩
  · intro hset
    have hv : (defaultResolution p).OutResolution.value
        = wrapInt (p.RadialBins.value * 2 + 1) := by
      unfold defaultResolution
      simp [hset]
    refine ⟨hv, ?_, ?_⟩
    · intro h0 h1
      show (defaultResolution p).OutResolution.value = _
      rw [hv, wrapInt_eq_self (by omega) (by omega)]
      ring
    · intro h5
      show (defaultResolution p).OutResolution.value = _
      rw [hv, h5]
      rfl
  · intro hset
    show (defaultResolution p).OutResolution = _
    unfold defaultResolution
    simp [hset]

/-- C2 as amended, at `--in mesh.ply --vertex 0`: the output resolution becomes 11. -/
theorem C2_default_resolution_witness :
    usageError (vertexParams ℚ 0) = false ∧
    (vertexParams ℚ 0).OutResolution.set = false ∧
    (main (sampleEnv ℚ id 3 1) (vertexParams ℚ 0)).OutResolution.value = 11 :=
  ⟨rfl, rfl,
    ((C2_default_resolution (sampleEnv ℚ id 3 1) (vertexParams ℚ 0) rfl).1 rfl).2.2 rfl⟩

/-- C2 as stated fails in two ways.  With `--in mesh.ply --vertex 0 --rBins 1073741824` and no
`--resolution`, the `int` expression of line 278 overflows and the output resolution is
`-2147483647`, not `2 * 1073741824 + 1`.  With no option at all, `main` returns on line 276
and the output resolution keeps its declared value and is not 11. -/
theorem C2_counterexample :
    (usageError hugeBinsParams = false ∧ hugeBinsParams.OutResolution.set = false ∧
      hugeBinsParams.RadialBins.value = 1073741824 ∧
      (main (sampleEnv ℚ id 3 1) hugeBinsParams).OutResolution.value = -2147483647 ∧
      (main (sampleEnv ℚ id 3 1) hugeBinsParams).OutResolution.value
        ≠ 2 * hugeBinsParams.RadialBins.value + 1) ∧
    ((globals ℚ 0).OutResolution.set = false ∧ (globals ℚ 0).RadialBins.value = 5 ∧
      (main (sampleEnv ℚ id 3 1) (globals ℚ 0)).OutResolution.value = 0 ∧
      (main (sampleEnv ℚ id 3 1) (globals ℚ 0)).OutResolution.value ≠ 2 * 5 + 1) := by
  have hHuge := main_of_not_usageError (sampleEnv ℚ id 3 1) hugeBinsParams rfl
  have hNone := main_of_usageError (sampleEnv ℚ id 3 1) (globals ℚ 0) rfl
  refine ⟨⟨rfl, rfl, rfl, ?_, ?_⟩, rfl, rfl, ?_, ?_⟩
  · rw [hHuge]
    decide
  · rw [hHuge]
    decide
  · rw [hNone]
    rfl
  · rw [hNone]
    decide

/-- C3, as amended: for every `k` with `1 ≤ k ≤ 2147483647` and a mesh with at least one
vertex, when `--vertex` is set to `-k`, `run` calls `echo` exactly `k` times, the `i`-th
call at the vertex `rand() % vertices.size()`, which lies in `[0, vertices.size())`, and
calls neither `ResampleSignal`, `ResampleSignalDisk` nor `TransposeSignal` and writes no
output. -/
theorem C3_batch_mode {R : Type} [Field R] (env : Env R) (p : Params R) (k : Nat)
    (hk : 1 ≤ k) (hmax : k ≤ 2147483647) (hv : 1 ≤ env.numVertices)
    (hset : p.SourceNode.set = true) (hval : p.SourceNode.value = -(k : Int)) :
    (run env p).filterMap Event.echoArgs
      = (List.range k).map (fun i => (⟨some Metric.biharmonic,
          Query.vertex ((env.rand i % env.numVertices : Nat) : Int),
          supportRadius env.sqrt env.pi p.threshFactor.value env.totalArea,
          p.RadialBins.value, p.DistanceType.value⟩ : EchoCall R)) ∧
    ((run env p).filterMap Event.echoArgs).length = k ∧
    (run env p).countP Event.isEcho = k ∧
    (∀ i, i < k → env.rand i % env.numVertices < env.numVertices) ∧
    (run env p).filter Event.isPostProcessing = [] := by
  have hb : (p.SourceNode.set && decide (p.SourceNode.value < 0)) = true := by
    rw [hset, hval]
    simp
    omega
  have hn : (wrapInt (-p.SourceNode.value)).toNat = k := by
    rw [hval, neg_neg, wrapInt_eq_self (by omega) (by omega)]
    simp
  have hidx : ∀ i, wrapInt ((env.rand i % env.numVertices : Nat) : Int)
      = ((env.rand i % env.numVertices : Nat) : Int) := by
    intro i
    have h1 := env.rand_le i
    have h2 : env.rand i % env.numVertices ≤ env.rand i := Nat.mod_le _ _
    exact wrapInt_eq_self (by omega) (by omega)
  have hlist := run_batch_echoArgs env p hb
  simp only [hn, hidx] at hlist
  refine ⟨hlist, ?_, ?_, ?_, run_batch_isPostProcessing env p hb⟩
  · rw [hlist]
    simp
  · rw [run_batch env p hb, hn, List.countP_append]
    have h0 : (prepare p).countP Event.isEcho = 0 := by
      unfold prepare
      cases p.Spec.set <;> simp [Event.isEcho]
    rw [h0, List.countP_map]
    simp [Function.comp_def, Event.isEcho]
  · intro i _
    exact Nat.mod_lt _ (by omega)

/-- C3 as amended, at `--vertex -10` on the 12-vertex mesh of `sampleEnv`: ten calls. -/
theorem C3_batch_mode_witness :
    1 ≤ 10 ∧ 10 ≤ 2147483647 ∧ 1 ≤ (sampleEnv ℚ id 3 1).numVertices ∧
    (vertexParams ℚ (-10)).SourceNode.set = true ∧
    (vertexParams ℚ (-10)).SourceNode.value = -((10 : Nat) : Int) ∧
    ((run (sampleEnv ℚ id 3 1) (vertexParams ℚ (-10))).filterMap Event.echoArgs).length = 10 ∧
    (run (sampleEnv ℚ id 3 1) (vertexParams ℚ (-10))).filter Event.isPostProcessing = [] :=
  have h := C3_batch_mode (sampleEnv ℚ id 3 1) (vertexParams ℚ (-10)) 10 (by decide)
    (by decide) (by decide) rfl rfl
  ⟨by decide, by decide, by decide, rfl, rfl, h.2.1, h.2.2.2.2⟩

/-- C3 as stated fails at `k = 2147483648`: with `--vertex -2147483648` the `int` negation of
line 194 overflows to `-2147483648`, the loop body never runs and `echo` is not called. -/
theorem C3_counterexample :
    1 ≤ 2147483648 ∧ 1 ≤ (sampleEnv ℚ id 3 1).numVertices ∧
    (vertexParams ℚ (-2147483648)).SourceNode.set = true ∧
    (vertexParams ℚ (-2147483648)).SourceNode.value = -((2147483648 : Nat) : Int) ∧
    wrapInt (-(vertexParams ℚ (-2147483648)).SourceNode.value) = -2147483648 ∧
    ((run (sampleEnv ℚ id 3 1) (vertexParams ℚ (-2147483648))).filterMap
      Event.echoArgs).length = 0 ∧
    ((run (sampleEnv ℚ id 3 1) (vertexParams ℚ (-2147483648))).filterMap
      Event.echoArgs).length ≠ 2147483648 := by
  have hl : ((run (sampleEnv ℚ id 3 1) (vertexParams ℚ (-2147483648))).filterMap
      Event.echoArgs).length = 0 := by
    rw [run_batch_echoArgs (sampleEnv ℚ id 3 1) (vertexParams ℚ (-2147483648)) (by decide)]
    have : (wrapInt (-(vertexParams ℚ (-2147483648)).SourceNode.value)).toNat = 0 := by decide
    rw [this]
    rfl
  refine ⟨by decide, by decide, rfl, rfl, by decide, hl, ?_⟩
  rw [hl]
  decide

/-- C6, as amended: a configuration whose output resolution or radial bin count is not
positive is not rejected; the driver does not validate these values.  Whenever the arguments
pass the check of line 273 the usage text is not shown and the pipeline is started; every
call of `echo` receives `RadialBins.value` unchanged, and outside batch mode `echo` is called
once and the output resolution, converted to `unsigned int`, is handed to `ResampleSignal`
or `ResampleSignalDisk`, whether or not these values are positive. -/
theorem C6_no_validation {R : Type} [Field R] (env : Env R) (p : Params R)
    (hok : usageError p = false) :
    (main env p).trace = run env (defaultResolution p) ∧
    Event.showUsage ∉ (main env p).trace ∧
    (∀ c ∈ (main env p).trace.filterMap Event.echoArgs, c.nRadialBins = p.RadialBins.value) ∧
    ((p.SourceNode.set && decide (p.SourceNode.value < 0)) = false →
      ((main env p).trace.filterMap Event.echoArgs).map EchoCall.nRadialBins
        = [p.RadialBins.value] ∧
      (main env p).trace.filterMap Event.resampleArgs
        = [(toUnsigned (main env p).OutResolution.value,
            toUnsigned (main env p).OutResolution.value)] ∧
      (p.OutResolution.set = true →
        (main env p).trace.filterMap Event.resampleArgs
          = [(toUnsigned p.OutResolution.value, toUnsigned p.OutResolution.value)])) := by
  obtain ⟨hN, -, -, hR, -, -, -⟩ := defaultResolution_fields p
  rw [main_of_not_usageError env p hok]
  refine ⟨rfl, showUsage_not_mem_run env _, ?_, ?_⟩
  · intro c hcmem
    change c ∈ (run env (defaultResolution p)).filterMap Event.echoArgs at hcmem
    cases hb : ((defaultResolution p).SourceNode.set &&
        decide ((defaultResolution p).SourceNode.value < 0))
    · rw [run_single_echoArgs env _ hb] at hcmem
      simp only [List.mem_singleton] at hcmem
      rw [hcmem, hR]
    · rw [run_batch_echoArgs env _ hb] at hcmem
      simp only [List.mem_map] at hcmem
      obtain ⟨i, -, hi⟩ := hcmem
      rw [← hi, hR]
  · intro hs
    have hb : ((defaultResolution p).SourceNode.set &&
        decide ((defaultResolution p).SourceNode.value < 0)) = false := by
      rw [hN]
      exact hs
    refine ⟨?_, run_single_resampleArgs env _ hb, ?_⟩
    · show ((run env (defaultResolution p)).filterMap Event.echoArgs).map _ = _
      rw [run_single_echoArgs env _ hb, hR]
      rfl
    · intro hset
      show (run env (defaultResolution p)).filterMap Event.resampleArgs = _
      rw [run_single_resampleArgs env _ hb]
      unfold defaultResolution
      simp [hset]

/-- C6 as amended, at `--in mesh.ply --vertex 0 --rBins 0 --resolution 0`: the usage text is
not shown, `echo` receives 0 radial bins and `ResampleSignal` the resolution 0. -/
theorem C6_no_validation_witness :
    usageError zeroResolutionParams = false ∧
    Event.showUsage ∉ (main (sampleEnv ℚ id 3 1) zeroResolutionParams).trace ∧
    ((main (sampleEnv ℚ id 3 1) zeroResolutionParams).trace.filterMap Event.echoArgs).map
      EchoCall.nRadialBins = [0] ∧
    (main (sampleEnv ℚ id 3 1) zeroResolutionParams).trace.filterMap Event.resampleArgs
      = [(0, 0)] :=
  have h := C6_no_validation (sampleEnv ℚ id 3 1) zeroResolutionParams rfl
  ⟨rfl, h.2.1, (h.2.2.2 rfl).1, (h.2.2.2 rfl).2.2 rfl⟩

/-- C6 as stated fails at `--in mesh.ply --vertex 0 --rBins 0 --resolution 0`: the resolution
and the bin count are not positive, yet nothing is rejected: `main` runs the pipeline,
`echo` is called with 0 radial bins and `ResampleSignal` with the resolution 0. -/
theorem C6_counterexample :
    zeroResolutionParams.OutResolution.value ≤ 0 ∧ zeroResolutionParams.RadialBins.value ≤ 0 ∧
    (main (sampleEnv ℚ id 3 1) zeroResolutionParams).trace
      = run (sampleEnv ℚ id 3 1) zeroResolutionParams ∧
    ((run (sampleEnv ℚ id 3 1) zeroResolutionParams).filterMap Event.echoArgs).map
      EchoCall.nRadialBins = [0] ∧
    (run (sampleEnv ℚ id 3 1) zeroResolutionParams).filterMap Event.resampleArgs
      = [(0, 0)] ∧
    (run (sampleEnv ℚ id 3 1) zeroResolutionParams).filter Event.isPostProcessing ≠ [] := by
  have hb : (zeroResolutionParams.SourceNode.set &&
      decide (zeroResolutionParams.SourceNode.value < 0)) = false := by decide
  have hr := run_single_resampleArgs (sampleEnv ℚ id 3 1) zeroResolutionParams hb
  have he := run_single_echoArgs (sampleEnv ℚ id 3 1) zeroResolutionParams hb
  refine ⟨by decide, by decide, ?_, ?_, hr, ?_⟩
  · rw [main_of_not_usageError _ _ (by decide : usageError zeroResolutionParams = false)]
    rfl
  · rw [he]
    rfl
  · intro hnil
    have hmem : Event.transposeSignal ∈
        (run (sampleEnv ℚ id 3 1) zeroResolutionParams).filter Event.isPostProcessing := by
      rw [List.mem_filter]
      refine ⟨?_, rfl⟩
      unfold run
      simp [zeroResolutionParams, vertexParams, globals]
    rw [hnil] at hmem
    simp at hmem

/-- C7, as amended: the metric in which the gradient of the smoothed HKS field is computed is
always the biharmonic one: `run` calls `tMesh.initMetricsBiharmonic()` before
`tMesh.metricGradient` without reading `--distance`, while every call of `echo` receives the
selected distance type unchanged; so the gradient field handed to `echo` is consistent with
the distance type handed to `echo` exactly when the selected distance type is
`DISTANCE_BIHARMONIC`. -/
theorem C7_metric_is_biharmonic {R : Type} [Field R] (env : Env R) (p : Params R) :
    (∀ d : CmdLineParameter Int, prepare { p with DistanceType := d } = prepare p) ∧
    (MeshState.after (prepare p)).triangleGradients = some Metric.biharmonic ∧
    ((run env p).filterMap Event.echoArgs).map (fun c => (c.triangleGradients, c.distanceType))
      = List.replicate
          (if (p.SourceNode.set && decide (p.SourceNode.value < 0)) = true
            then (wrapInt (-p.SourceNode.value)).toNat else 1)
          (some Metric.biharmonic, p.DistanceType.value) ∧
    (∀ c ∈ (run env p).filterMap Event.echoArgs,
      (metricMatches env.DISTANCE_BIHARMONIC c.triangleGradients c.distanceType ↔
        p.DistanceType.value = env.DISTANCE_BIHARMONIC)) := by
  have hlist : ((run env p).filterMap Event.echoArgs).map
      (fun c => (c.triangleGradients, c.distanceType))
      = List.replicate
          (if (p.SourceNode.set && decide (p.SourceNode.value < 0)) = true
            then (wrapInt (-p.SourceNode.value)).toNat else 1)
          (some Metric.biharmonic, p.DistanceType.value) := by
    cases hb : (p.SourceNode.set && decide (p.SourceNode.value < 0))
    · rw [run_single_echoArgs env _ hb]
      rfl
    · rw [run_batch_echoArgs env _ hb, List.map_map]
      simp only [if_true, Function.comp_def]
      exact map_range_const _ _
  refine ⟨fun d => prepare_DistanceType p d, triangleGradients_prepare p, hlist, ?_⟩
  intro c hcmem
  have hmem : (c.triangleGradients, c.distanceType) ∈
      ((run env p).filterMap Event.echoArgs).map
        (fun c => (c.triangleGradients, c.distanceType)) :=
    List.mem_map.mpr ⟨c, hcmem, rfl⟩
  rw [hlist] at hmem
  have hpair := (List.mem_replicate.mp hmem).2
  have h1 : c.triangleGradients = some Metric.biharmonic := congrArg Prod.fst hpair
  have h2 : c.distanceType = p.DistanceType.value := congrArg Prod.snd hpair
  unfold metricMatches
  rw [h1, h2]
  simp

/-- C7 as stated fails: the runs `--in mesh.ply --vertex 0 --distance 0` and
`--in mesh.ply --vertex 0 --distance 1` both hand to `echo` gradients filled in the
biharmonic metric, with the distance types 0 and 1.  Whatever the value of the enumerator
`DISTANCE_BIHARMONIC`, one of the two selectors is not the biharmonic one and gets the
biharmonic metric. -/
theorem C7_counterexample :
    ((run (sampleEnv ℚ id 3 1) (distanceParams 0)).filterMap Event.echoArgs).map
      (fun c => (c.triangleGradients, c.distanceType)) = [(some Metric.biharmonic, 0)] ∧
    ((run (sampleEnv ℚ id 3 1) (distanceParams 1)).filterMap Event.echoArgs).map
      (fun c => (c.triangleGradients, c.distanceType)) = [(some Metric.biharmonic, 1)] ∧
    (∀ B : Int, ¬ (metricMatches B (some Metric.biharmonic) 0 ∧
      metricMatches B (some Metric.biharmonic) 1)) := by
  have h0 := run_single_echoArgs (sampleEnv ℚ id 3 1) (distanceParams 0) (by decide)
  have h1 := run_single_echoArgs (sampleEnv ℚ id 3 1) (distanceParams 1) (by decide)
  refine ⟨?_, ?_, ?_⟩
  · rw [h0]
    rfl
  · rw [h1]
    rfl
  · intro B h
    have e0 : (0 : Int) = B := h.1.mp rfl
    have e1 : (1 : Int) = B := h.2.mp rfl
    omega

/-- C1: for every total mesh area `A ≥ 0` and every support-radius factor `tau ≥ 0`, with
`std::sqrt` the real square root and `M_PI` the number π, every call of `echo` that `run`
makes (one outside batch mode, one per iteration in batch mode) receives the support radius
`rho = tau * sqrt(A / π)`, and `π * rho^2 = tau^2 * A`. -/
theorem C1_support_radius (env : Env ℝ) (p : Params ℝ)
    (hA : 0 ≤ env.totalArea) (_htau : 0 ≤ p.threshFactor.value)
    (hsqrt : env.sqrt = Real.sqrt) (hpi : env.pi = Real.pi) :
    supportRadius env.sqrt env.pi p.threshFactor.value env.totalArea
      = p.threshFactor.value * Real.sqrt (env.totalArea / Real.pi) ∧
    Real.pi * supportRadius env.sqrt env.pi p.threshFactor.value env.totalArea ^ 2
      = p.threshFactor.value ^ 2 * env.totalArea ∧
    ((run env p).filterMap Event.echoArgs).map EchoCall.rho
      = List.replicate
          (if (p.SourceNode.set && decide (p.SourceNode.value < 0)) = true
            then (wrapInt (-p.SourceNode.value)).toNat else 1)
          (p.threshFactor.value * Real.sqrt (env.totalArea / Real.pi)) ∧
    ((p.SourceNode.set && decide (p.SourceNode.value < 0)) = false →
      ((run env p).filterMap Event.echoArgs).map EchoCall.rho
        = [p.threshFactor.value * Real.sqrt (env.totalArea / Real.pi)]) ∧
    (∀ c ∈ (run env p).filterMap Event.echoArgs,
      c.rho = p.threshFactor.value * Real.sqrt (env.totalArea / Real.pi) ∧
      Real.pi * c.rho ^ 2 = p.threshFactor.value ^ 2 * env.totalArea) := by
  have h1 : supportRadius env.sqrt env.pi p.threshFactor.value env.totalArea
      = p.threshFactor.value * Real.sqrt (env.totalArea / Real.pi) := by
    unfold supportRadius
    rw [hsqrt, hpi]
  have h2 : Real.pi * (p.threshFactor.value * Real.sqrt (env.totalArea / Real.pi)) ^ 2
      = p.threshFactor.value ^ 2 * env.totalArea := by
    have hq : 0 ≤ env.totalArea / Real.pi := div_nonneg hA Real.pi_pos.le
    rw [mul_pow, Real.sq_sqrt hq]
    field_simp
  have hlist : ((run env p).filterMap Event.echoArgs).map EchoCall.rho
      = List.replicate
          (if (p.SourceNode.set && decide (p.SourceNode.value < 0)) = true
            then (wrapInt (-p.SourceNode.value)).toNat else 1)
          (p.threshFactor.value * Real.sqrt (env.totalArea / Real.pi)) := by
    rw [← h1]
    cases hb : (p.SourceNode.set && decide (p.SourceNode.value < 0))
    · rw [run_single_echoArgs env _ hb]
      rfl
    · rw [run_batch_echoArgs env _ hb, List.map_map]
      simp only [if_true, Function.comp_def]
      exact map_range_const _ _
  refine ⟨h1, ?_, hlist, ?_, ?_⟩
  · rw [h1, h2]
  · intro hb
    rw [hlist, hb]
    rfl
  · intro c hcmem
    have hmem : c.rho ∈ ((run env p).filterMap Event.echoArgs).map EchoCall.rho :=
      List.mem_map.mpr ⟨c, hcmem, rfl⟩
    rw [hlist] at hmem
    rw [(List.mem_replicate.mp hmem).2]
    exact ⟨rfl, h2⟩

/-- C1, at `--in mesh.ply --vertex 0` (factor `8/100`) on a mesh of total area 4: the single
call of `echo` receives `rho = 8/100 * sqrt(4 / π)`, and `π * rho^2 = (8/100)^2 * 4`. -/
theorem C1_support_radius_witness :
    0 ≤ (sampleEnv ℝ Real.sqrt Real.pi 4).totalArea ∧
    0 ≤ (vertexParams ℝ 0).threshFactor.value ∧
    (sampleEnv ℝ Real.sqrt Real.pi 4).sqrt = Real.sqrt ∧
    (sampleEnv ℝ Real.sqrt Real.pi 4).pi = Real.pi ∧
    ((run (sampleEnv ℝ Real.sqrt Real.pi 4) (vertexParams ℝ 0)).filterMap
      Event.echoArgs).map EchoCall.rho = [8 / 100 * Real.sqrt (4 / Real.pi)] ∧
    Real.pi * (8 / 100 * Real.sqrt (4 / Real.pi)) ^ 2 = (8 / 100) ^ 2 * 4 :=
  have hA : 0 ≤ (sampleEnv ℝ Real.sqrt Real.pi 4).totalArea := by
    show (0 : ℝ) ≤ 4
    norm_num
  have htau : 0 ≤ (vertexParams ℝ 0).threshFactor.value := by
    show (0 : ℝ) ≤ 8 / 100
    norm_num
  have h := C1_support_radius (sampleEnv ℝ Real.sqrt Real.pi 4) (vertexParams ℝ 0) hA htau
    rfl rfl
  ⟨hA, htau, rfl, rfl, h.2.2.2.1 (by decide), h.2.1⟩

/-- C9, at the `3 × 3` grid `indexGrid 3` resampled to `5 × 5`, for the output cell
`(4, 2)`. -/
theorem C9_sample_coordinates_in_domain_witness :
    1 ≤ (indexGrid 3).res0 ∧ 1 ≤ (indexGrid 3).res1 ∧ 2 ≤ 5 ∧ 4 < 5 ∧ 2 < 5 ∧
    ∃ x y : ℚ,
      sampleCoord 4 5 (indexGrid 3).res0 = some x ∧ sampleCoord 2 5 (indexGrid 3).res1 = some y ∧
      (ResampleSignal cellEval (indexGrid 3) 5 5).cell 4 2
        = cellEval (indexGrid 3) (some x) (some y) ∧
      0 ≤ x ∧ x ≤ ((indexGrid 3).res0 : ℚ) - 1 ∧ 0 ≤ y ∧ y ≤ ((indexGrid 3).res1 : ℚ) - 1 ∧
      (4 = 0 → x = 0) ∧ (4 = 5 - 1 → x = ((indexGrid 3).res0 : ℚ) - 1) ∧
      (2 = 0 → y = 0) ∧ (2 = 5 - 1 → y = ((indexGrid 3).res1 : ℚ) - 1) :=
  ⟨by decide, by decide, by decide, by decide, by decide,
    C9_sample_coordinates_in_domain cellEval (indexGrid 3) 5 5 4 2 (by decide) (by decide)
      (by decide) (by decide) (by decide) (by decide)⟩

end GetDescriptor
